import Mathlib

/-!
Verification of the ld-relay core against its natural-language
specification.

The definitions below are a shallow embedding of the relay Go source:
pure fragments become Lean functions, the HTTP handlers become functions
from an explicit request model to an explicit response record, and the
feature store becomes an association list with explicit version checks.
External collaborators (the SHA-1 digest, JSON marshalling, the SDK
HMAC secure-mode hash and the SDK evaluator) are passed in as opaque
function parameters, exactly as the relay itself treats them as black
boxes behind library calls.
-/

namespace LDRelay

/-- A versioned item descriptor, mirroring the SDK type
`ldstoretypes.ItemDescriptor`: a version plus an item payload, where a
missing payload (`none`) is a deleted-item tombstone. Item payloads are
opaque to the relay, so they are modelled as strings. -/
structure StoredItem where
  version : Int
  item : Option String
deriving DecidableEq

/-- The two data kinds handled by the store, `ldstoreimpl.Features()` and
`ldstoreimpl.Segments()`. -/
inductive DataKind
  | features
  | segments
deriving DecidableEq

/-- A per-environment backing store: a mapping from kind and key to a
descriptor, modelled as an association list. -/
abbrev Store : Type := List ((DataKind × String) × StoredItem)

/-- Reads one item. A missing key yields the SDK not-found descriptor,
which has version -1 and a nil item, mirroring the in-memory data store
method `Get`. -/
def storeGet (s : Store) (kind : DataKind) (key : String) : StoredItem :=
  match List.lookup (kind, key) s with
  | some d => d
  | none => { version := -1, item := none }

/-- Writes one item with the in-memory store versioning rule: the write is
applied exactly when there is no stored descriptor for the key or the
incoming version is strictly greater than the stored one (a stored
tombstone counts). Returns the applied flag together with the new store. -/
def storeUpsert (s : Store) (kind : DataKind) (key : String) (d : StoredItem) :
    Bool × Store :=
  match List.lookup (kind, key) s with
  | some old =>
      if old.version < d.version then
        (true, ((kind, key), d) :: List.filter (fun p => p.1 ≠ (kind, key)) s)
      else
        (false, s)
  | none => (true, ((kind, key), d) :: s)

/-- The observable outcome of one handler invocation: the aspects of
`http.ResponseWriter` the handlers under test touch. -/
structure HttpResponse where
  status : Nat
  etagHeader : Option String
  contentTypeHeader : Option String
  varyHeader : Option String
  hasExpiresHeader : Bool
  body : Option String
deriving DecidableEq

/-- A bare status response: only `WriteHeader` was called. -/
def statusOnlyResponse (status : Nat) : HttpResponse :=
  { status := status, etagHeader := none, contentTypeHeader := none,
    varyHeader := none, hasExpiresHeader := false, body := none }

/-- Embeds `writeCacheableJSONResponse` from `relay_endpoints.go`: prefix
the etag value with `relay-`, answer 304 with no body when `If-None-Match`
carries exactly that etag, and otherwise answer 200 with the JSON entity,
the etag header, and — when the environment TTL is positive —
`Vary: Authorization` plus an `Expires` header. An absent `If-None-Match`
header is the empty string, as `req.Header.Get` returns that. The entity
arrives already marshalled; `json.Marshal` cannot fail on the string
payloads of this model, so the 500 branch for marshalling is
unreachable here. -/
def writeCacheableJSONResponse (ifNoneMatch : String) (ttl : Int)
    (entityJSON : String) (etagValue : String) : HttpResponse :=
  let etag := "relay-" ++ etagValue
  if ifNoneMatch ≠ "" ∧ ifNoneMatch = etag then
    statusOnlyResponse 304
  else
    { status := 200, etagHeader := some etag,
      contentTypeHeader := some "application/json",
      varyHeader := if 0 < ttl then some "Authorization" else none,
      hasExpiresHeader := 0 < ttl,
      body := some entityJSON }

/-- Embeds `pollFlagOrSegment` from `relay_endpoints.go`: a store read
error yields 500; a descriptor without an item (absent key or deleted
tombstone) yields 404 with nothing else written; otherwise the item is
served through `writeCacheableJSONResponse` with the item version as etag
value. `marshal` stands for `json.Marshal` on the item payload. -/
def pollFlagOrSegment (marshal : String → String)
    (getResult : Except Unit StoredItem) (ifNoneMatch : String) (ttl : Int) :
    HttpResponse :=
  match getResult with
  | .error _ => statusOnlyResponse 500
  | .ok d =>
      match d.item with
      | none => statusOnlyResponse 404
      | some payload =>
          writeCacheableJSONResponse ifNoneMatch ttl (marshal payload)
            (toString d.version)

/-- One character of the Go regexp character class for hexadecimal
digits: lowercase a to f, uppercase A to F, or a decimal digit. -/
def isHexDigitChar (c : Char) : Bool :=
  (Char.ofNat 97 ≤ c && c ≤ Char.ofNat 102) ||
  (Char.ofNat 65 ≤ c && c ≤ Char.ofNat 70) ||
  (Char.ofNat 48 ≤ c && c ≤ Char.ofNat 57)

/-- The per-character action of the `hexdigit` replacement in
`obscureKey`: each single-character match becomes an asterisk
(character code 42), everything else is kept. -/
def hexObscure (c : Char) : Char :=
  if isHexDigitChar c then Char.ofNat 42 else c

/-- Embeds `obscureKey` from `relay_endpoints.go` and `endpoints.go`: for
keys longer than 8 it keeps the first 4 and last 5 characters and replaces
every hexadecimal digit in between with an asterisk; shorter keys are
returned unchanged. -/
def obscureKey (key : String) : String :=
  if 8 < key.length then
    String.mk (key.data.take 4 ++
      ((key.data.drop 4).take (key.length - 9)).map hexObscure ++
      key.data.drop (key.length - 5))
  else key

/-- A flag as returned by `GetAll` in `pollAllFlagsHandler`: key, version,
and the rest of the flag body, which the etag computation must not depend
on and which is therefore opaque. -/
structure KeyedItem where
  key : String
  version : Int
  body : String
deriving DecidableEq

/-- The comparison used by the `sort.Slice` call in `pollAllFlagsHandler`,
as a non-strict relation on items. -/
def keyLe (a b : KeyedItem) : Prop := a.key ≤ b.key

instance : DecidableRel keyLe :=
  fun a b => inferInstanceAs (Decidable (a.key ≤ b.key))

instance : IsTotal KeyedItem keyLe := ⟨fun a b => le_total a.key b.key⟩

instance : IsTrans KeyedItem keyLe := ⟨fun _ _ _ hab hbc => le_trans hab hbc⟩

/-- The same key comparison on bare key-version pairs. -/
def pairKeyLe (a b : String × Int) : Prop := a.1 ≤ b.1

instance : DecidableRel pairKeyLe :=
  fun a b => inferInstanceAs (Decidable (a.1 ≤ b.1))

instance : IsTotal (String × Int) pairKeyLe := ⟨fun a b => le_total a.1 b.1⟩

instance : IsTrans (String × Int) pairKeyLe := ⟨fun _ _ _ h1 h2 => le_trans h1 h2⟩

/-- Strict key comparison on key-version pairs, used to show sorted lists
with distinct keys are unique. -/
def pairKeyLt (a b : String × Int) : Prop := a.1 < b.1

instance : IsAntisymm (String × Int) pairKeyLt :=
  ⟨fun _ _ h1 h2 => ((lt_asymm h1) h2).elim⟩

/-- Projects an item to the only data the etag hash reads: key and
version. -/
def keyVersion (i : KeyedItem) : String × Int := (i.key, i.version)

/-- The string written into the hash for one item: key, colon, version,
as produced by the Sprintf format in `pollAllFlagsHandler`. -/
def etagItemString (i : KeyedItem) : String :=
  i.key ++ ":" ++ toString i.version

/-- The `sort.Slice` call in `pollAllFlagsHandler`: sort the dataset by
flag key to make the hash deterministic. -/
def etagSortedData (data : List KeyedItem) : List KeyedItem :=
  List.insertionSort keyLe data

/-- The full byte stream fed to the SHA-1 hash in `pollAllFlagsHandler`:
the key-colon-version strings of the dataset in key order. -/
def etagInput (data : List KeyedItem) : String :=
  String.join ((etagSortedData data).map etagItemString)

/-- The etag computed by `pollAllFlagsHandler`: the first 15 characters of
the hex encoding of the SHA-1 digest of `etagInput`. `sha1hex` stands for
the external digest-and-hex-encode pipeline from `crypto/sha1` and
`encoding/hex`. -/
def pollAllFlagsEtag (sha1hex : String → String) (data : List KeyedItem) :
    String :=
  (sha1hex (etagInput data)).take 15

/-- Embeds `itemsCollectionToMap` from `relay_endpoints.go`: the response
data is the key-to-item mapping. -/
def itemsCollectionToMap (coll : List KeyedItem) : List (String × String) :=
  coll.map (fun i => (i.key, i.body))

/-- Embeds `pollAllFlagsHandler` from `relay_endpoints.go`: a store read
error yields 500; otherwise the key-ordered key-version hash becomes the
etag and the dataset is served through `writeCacheableJSONResponse`.
`marshal` stands for `json.Marshal` on the response map. -/
def pollAllFlagsHandler (sha1hex : String → String)
    (marshal : List (String × String) → String)
    (getAllResult : Except Unit (List KeyedItem)) (ifNoneMatch : String)
    (ttl : Int) : HttpResponse :=
  match getAllResult with
  | .error _ => statusOnlyResponse 500
  | .ok data =>
      writeCacheableJSONResponse ifNoneMatch ttl
        (marshal (itemsCollectionToMap data)) (pollAllFlagsEtag sha1hex data)

/-- A decoded user; only the key attribute is relevant to the embedded
handlers. -/
structure User where
  key : String
deriving DecidableEq

/-- The request-origin kind distinguished by the handlers. -/
inductive SdkKind
  | server
  | mobile
  | jsClient
deriving DecidableEq

/-- The inputs of `getClientSideUserProperties`: the request method, its
content type, the two possible user-decode results (the body JSON
unmarshal for REPORT, the base64 path segment decode otherwise — both
performed by external library code, hence given as results), and the
relevant query parameters. -/
structure ClientRequest where
  method : String
  contentType : String
  bodyUser : Except String User
  pathUser : Except String User
  queryH : String
  queryWithReasons : String

/-- The outcome of `getClientSideUserProperties`: either a rejection that
already wrote a status and message (with a flag telling whether the
message body was JSON), or the accepted user. -/
inductive UserPropsOutcome
  | rejected (status : Nat) (jsonBody : Bool) (message : String)
  | accepted (user : User)
deriving DecidableEq

/-- Embeds `getClientSideUserProperties` from `relay_endpoints.go`:
REPORT requests must carry a JSON content type (else 415 with a plain-text
message); a user decode failure yields 400 with a JSON error body; when
the environment is in secure mode and the caller is the JS client SDK, the
query parameter h must be non-empty and equal to the SDK secure-mode hash
of the user (else 400 with a JSON error body); otherwise the user is
accepted. `secureModeHash` stands for the SDK function computing the
HMAC-SHA-256 of the user key under the SDK key, in lowercase hex. -/
def getClientSideUserProperties (secureMode : Bool)
    (secureModeHash : User → String) (sdkKind : SdkKind)
    (req : ClientRequest) : UserPropsOutcome :=
  if req.method = "REPORT" ∧ req.contentType ≠ "application/json" then
    .rejected 415 false "Content-Type must be application/json."
  else
    match (if req.method = "REPORT" then req.bodyUser else req.pathUser) with
    | .error e => .rejected 400 true e
    | .ok user =>
        if secureMode ∧ sdkKind = .jsClient then
          if req.queryH ≠ "" ∧ req.queryH = secureModeHash user then
            .accepted user
          else
            .rejected 400 true
              "Environment is in secure mode, and user hash does not match."
        else
          .accepted user

/-- The outcome of a client-side streaming endpoint: either the SSE stream
handler was invoked for the user, or an error response was written and no
stream was attached. -/
inductive StreamResult
  | attached (user : User)
  | errorResponse (status : Nat) (jsonBody : Bool) (message : String)
deriving DecidableEq

/-- Embeds `pingStreamHandlerWithUser` from `relay_endpoints.go`: validate
the user via `getClientSideUserProperties` and attach the stream only on
acceptance. -/
def pingStreamHandlerWithUser (secureMode : Bool)
    (secureModeHash : User → String) (sdkKind : SdkKind)
    (req : ClientRequest) : StreamResult :=
  match getClientSideUserProperties secureMode secureModeHash sdkKind req with
  | .accepted user => .attached user
  | .rejected status jsonBody message => .errorResponse status jsonBody message

/-- A feature flag, restricted to the fields `evaluateAllShared` reads. -/
structure Flag where
  key : String
  version : Int
  trackEvents : Bool
  debugEventsUntilDate : Int
  clientSide : Bool
deriving DecidableEq

/-- An evaluation result from the SDK evaluator: the value (opaque JSON),
the variation index (negative when no variation applies), and the reason
(opaque JSON). -/
structure EvalDetail where
  value : String
  variationIndex : Int
  reason : String
deriving DecidableEq

/-- The new-schema response object `evalXResult`: optional fields are
`none` exactly when the Go struct omits them from the JSON. -/
structure EvalXResult where
  value : String
  variation : Option Int
  version : Int
  trackEvents : Bool
  trackReason : Bool
  debugEventsUntilDate : Option Int
  reason : Option String
deriving DecidableEq

/-- One entry of the evaluation response map: the bare value under the
legacy schema, or the full object under the new schema. -/
inductive EvalEntry
  | valueOnlyEntry (value : String)
  | fullEntry (r : EvalXResult)
deriving DecidableEq

/-- The per-flag result construction inside the `evaluateAllShared` loop:
under the legacy schema only the value; under the new schema the object
with value, version, trackEvents as the flag tracking bit or the
experiment bit, trackReason as the experiment bit, variation only for a
non-negative index, reason only when reasons were requested or the
evaluation is an experiment, and debugEventsUntilDate only when
non-zero. -/
def makeEvalEntry (valueOnly withReasons isExperiment : Bool)
    (flag : Flag) (detail : EvalDetail) : EvalEntry :=
  if valueOnly then
    .valueOnlyEntry detail.value
  else
    .fullEntry
      { value := detail.value
        version := flag.version
        trackEvents := flag.trackEvents || isExperiment
        trackReason := isExperiment
        variation :=
          if 0 ≤ detail.variationIndex then some detail.variationIndex
          else none
        reason :=
          if withReasons || isExperiment then some detail.reason else none
        debugEventsUntilDate :=
          if flag.debugEventsUntilDate ≠ 0 then some flag.debugEventsUntilDate
          else none }

/-- The response-building loop of `evaluateAllShared`: flags that are not
client-side are skipped for the JS client SDK; every other flag is
evaluated and rendered by `makeEvalEntry`. `evalFn` stands for the SDK
evaluator, `isExperimentFn` for the SDK experimentation check on the flag
and the evaluation reason. -/
def evaluateAllLoop (sdkKind : SdkKind) (valueOnly withReasons : Bool)
    (evalFn : Flag → User → EvalDetail)
    (isExperimentFn : Flag → String → Bool)
    (user : User) (items : List Flag) : List (String × EvalEntry) :=
  (items.filter
      (fun flag => !(sdkKind = SdkKind.jsClient && !flag.clientSide))).map
    (fun flag =>
      (flag.key,
        makeEvalEntry valueOnly withReasons
          (isExperimentFn flag (evalFn flag user).reason) flag
          (evalFn flag user)))

/-- The outcome of the evaluation endpoints: an error response, or the
rendered response map. -/
inductive EvalResponse
  | errorResp (status : Nat) (jsonBody : Bool) (message : String)
  | okResp (entries : List (String × EvalEntry))
deriving DecidableEq

/-- Embeds `evaluateAllShared` from `relay_endpoints.go`: validate the
user (including the secure-mode gate); answer 503 when neither the SDK
client nor the backing store is initialized; answer 400 for a user with an
empty key; answer 500 on a store read error; otherwise render the
response map with `evaluateAllLoop`. -/
def evaluateAllShared (secureMode : Bool) (secureModeHash : User → String)
    (sdkKind : SdkKind) (valueOnly : Bool)
    (clientInited storeInited : Bool)
    (itemsResult : Except Unit (List Flag))
    (evalFn : Flag → User → EvalDetail)
    (isExperimentFn : Flag → String → Bool)
    (req : ClientRequest) : EvalResponse :=
  match getClientSideUserProperties secureMode secureModeHash sdkKind req with
  | .rejected status jsonBody message => .errorResp status jsonBody message
  | .accepted user =>
      if !clientInited && !storeInited then
        .errorResp 503 true "Service not initialized"
      else if user.key = "" then
        .errorResp 400 true "User must have a key attribute"
      else
        match itemsResult with
        | .error _ =>
            .errorResp 500 true "Error fetching flags from feature store"
        | .ok items =>
            .okResp (evaluateAllLoop sdkKind valueOnly
              (req.queryWithReasons = "true") evalFn isExperimentFn user items)

/-- An SSE event published by the relay feature store, shaped after the
event values asserted by `TestRelayFeatureStore`: a patch-style upsert
event carrying a path and the item, a delete event carrying a path and a
version, or a ping. -/
inductive RelayEvent
  | upsertItem (path : String) (d : StoredItem)
  | deleteItem (path : String) (version : Int)
  | ping
deriving DecidableEq

/-- The events one store mutation publishes on each of the three fan-out
channels. -/
structure PublishedEvents where
  allEvents : List RelayEvent
  flagsEvents : List RelayEvent
  pingEvents : List RelayEvent
deriving DecidableEq

/-- No event on any channel. -/
def noEvents : PublishedEvents :=
  { allEvents := [], flagsEvents := [], pingEvents := [] }

/-- The path used on the all channel for a mutation of the given kind and
key. -/
def allChannelPath (kind : DataKind) (key : String) : String :=
  match kind with
  | .features => "/flags/" ++ key
  | .segments => "/segments/" ++ key

/-- Modelled from the spec: the implementation of
`NewSSERelayFeatureStore` and its `Upsert` method is not under `src/`;
only its unit tests (`TestRelayFeatureStore` in the test file) and the
spec section on the write-through store are. This model follows the
delegate-then-publish structure of the spec and reproduces every case of
`TestRelayFeatureStore`, which pins the observable behaviour: after
delegating to the backing store, the store re-reads the key; when a live
item is stored it publishes patch-style upsert events carrying that stored
item (on the all channel, on the flags channel for the features kind) plus
a ping — also when the write itself was not applied; when the stored
descriptor is a tombstone it publishes delete events with the incoming
version only if the write was applied, and otherwise publishes nothing. -/
def relayStoreUpsertEvents (applied : Bool) (kind : DataKind) (key : String)
    (newVersion : Int) (current : StoredItem) : PublishedEvents :=
  match current.item with
  | some _ =>
      { allEvents := [.upsertItem (allChannelPath kind key) current],
        flagsEvents :=
          if kind = .features then [.upsertItem ("/" ++ key) current] else [],
        pingEvents := [.ping] }
  | none =>
      if applied then
        { allEvents := [.deleteItem (allChannelPath kind key) newVersion],
          flagsEvents :=
            if kind = .features then [.deleteItem ("/" ++ key) newVersion]
            else [],
          pingEvents := [.ping] }
      else noEvents

/-- Modelled from the spec: the `Upsert` entry point of the relay feature
store (implementation not under `src/`) — delegate to the backing store,
re-read the resulting descriptor, and publish per
`relayStoreUpsertEvents`. Returns the new backing store contents and the
published events. -/
def relayStoreUpsert (s : Store) (kind : DataKind) (key : String)
    (d : StoredItem) : Store × PublishedEvents :=
  ((storeUpsert s kind key d).2,
   relayStoreUpsertEvents (storeUpsert s kind key d).1 kind key d.version
     (storeGet (storeUpsert s kind key d).2 kind key))

/-- A credential, one of the three kinds of the data model: server SDK
key, mobile key, or environment ID. -/
inductive EnvCredential
  | sdkKey (value : String)
  | mobileKey (value : String)
  | envId (value : String)
deriving DecidableEq

/-- The process-wide credential index: a mapping from credentials to the
environment they address. -/
abbrev CredentialIndex := List (EnvCredential × String)

/-- Looks a credential up in the index. -/
def lookupEnvironment (idx : CredentialIndex) (c : EnvCredential) :
    Option String :=
  List.lookup c idx

/-- Modelled from the spec: the status the authentication middleware (not
under `src/`; exercised by the stream endpoint tests) answers for a
credential bound to no environment — 401 for a server SDK key or mobile
key read from the Authorization header, 404 for an environment ID embedded
in the URL. -/
def unknownCredentialStatus : EnvCredential → Nat
  | .sdkKey _ => 401
  | .mobileKey _ => 401
  | .envId _ => 404

/-- The outcome of authentication: the resolved environment, or a failure
status with no environment. -/
inductive AuthResult
  | authorized (envName : String)
  | authFailed (status : Nat)
deriving DecidableEq

/-- Modelled from the spec: the authentication middleware (not under
`src/`) resolves the credential through the index and rejects unknown
credentials with the kind-dependent status before any handler runs. -/
def authenticateRequest (idx : CredentialIndex) (c : EnvCredential) :
    AuthResult :=
  match lookupEnvironment idx c with
  | some env => .authorized env
  | none => .authFailed (unknownCredentialStatus c)

/-- The credential bookkeeping of one environment: the active credentials
in registration order, and the deprecated ones. -/
structure EnvCredState where
  credentials : List EnvCredential
  deprecated : List EnvCredential
deriving DecidableEq

/-- Modelled from the spec: `EnvContext.AddCredential` (not under `src/`)
registers a new credential for the environment. -/
def addCredential (st : EnvCredState) (c : EnvCredential) : EnvCredState :=
  { st with credentials := st.credentials ++ [c] }

/-- Modelled from the spec: `EnvContext.RemoveCredential` (not under
`src/`) removes the credential immediately, so it stops resolving. -/
def removeCredential (st : EnvCredState) (c : EnvCredential) : EnvCredState :=
  { st with credentials := st.credentials.filter (fun x => x ≠ c) }

/-- Modelled from the spec: `EnvContext.DeprecateCredential` (not under
`src/`) moves the credential out of the active set while keeping it
resolving — until its expiry timestamp, whose scheduling lives outside
this model — by recording it as deprecated. -/
def deprecateCredential (st : EnvCredState) (c : EnvCredential) :
    EnvCredState :=
  { credentials := st.credentials.filter (fun x => x ≠ c),
    deprecated := st.deprecated ++ [c] }

/-- A credential resolves while it is active or deprecated (a deprecated
credential keeps resolving until its expiry timestamp elapses). -/
def credentialResolves (st : EnvCredState) (c : EnvCredential) : Prop :=
  c ∈ st.credentials ∨ c ∈ st.deprecated

instance (st : EnvCredState) (c : EnvCredential) :
    Decidable (credentialResolves st c) :=
  inferInstanceAs (Decidable (_ ∨ _))

/-- The old-SDK-key extraction loop of `UpdateEnvironment` in the file
data actions: iterate over the credentials, remembering the last SDK
key seen (the Go zero value, the empty string, when there is none). -/
def currentSDKKey (st : EnvCredState) : String :=
  st.credentials.foldl
    (fun acc c => match c with | .sdkKey v => v | _ => acc) ""

/-- The old-mobile-key extraction of the same loop. -/
def currentMobileKey (st : EnvCredState) : String :=
  st.credentials.foldl
    (fun acc c => match c with | .mobileKey v => v | _ => acc) ""

/-- The credential fields of `filedata.ArchiveEnvironment.Params` read by
`UpdateEnvironment`. -/
structure ArchiveParams where
  sdkKey : String
  mobileKey : String
  expiringSdkKey : String

/-- The SDK-key block of `relayFileDataActions.UpdateEnvironment`: when
the announced SDK key differs from the current one, add the new key; then
deprecate the old key if it equals the announced expiring key, and remove
it immediately otherwise. -/
def sdkKeyStep (st : EnvCredState) (p : ArchiveParams)
    (oldSDKKey : String) : EnvCredState :=
  if p.sdkKey ≠ oldSDKKey then
    if p.expiringSdkKey = oldSDKKey then
      deprecateCredential (addCredential st (.sdkKey p.sdkKey))
        (.sdkKey oldSDKKey)
    else
      removeCredential (addCredential st (.sdkKey p.sdkKey))
        (.sdkKey oldSDKKey)
  else st

/-- The mobile-key block of `relayFileDataActions.UpdateEnvironment`:
when the announced mobile key differs from the current one, add the new
key and remove the old one. -/
def mobileKeyStep (st : EnvCredState) (p : ArchiveParams)
    (oldMobileKey : String) : EnvCredState :=
  if p.mobileKey ≠ oldMobileKey then
    removeCredential (addCredential st (.mobileKey p.mobileKey))
      (.mobileKey oldMobileKey)
  else st

/-- Embeds the credential-rotation section of
`relayFileDataActions.UpdateEnvironment`: extract the old keys from the
current credentials, run the SDK-key block, then the mobile-key block. -/
def updateEnvironmentCredentials (st : EnvCredState) (p : ArchiveParams) :
    EnvCredState :=
  mobileKeyStep (sdkKeyStep st p (currentSDKKey st)) p (currentMobileKey st)

/-- The fields of `filedata.ArchiveEnvironment` read by the
`AddEnvironment` flow. -/
structure ArchiveEnvironmentParams where
  envID : String
  name : String
  sdkKey : String
  expiringSdkKey : String

/-- The relay-level state the `AddEnvironment` flow touches: the
environment registry, the credential index, the deprecated credentials,
the captured per-environment update sinks, and the error log. -/
structure OfflineRelayState where
  registry : List String
  credIndex : CredentialIndex
  deprecatedCreds : List EnvCredential
  envUpdates : List (String × Nat)
  logs : List String
deriving DecidableEq

/-- The timeout log message constant of the file data actions. -/
def logMsgOfflineEnvTimeoutError (name : String) : String :=
  "Unable to initialize offline environment " ++ name
    ++ ": timed out waiting for client creation"

/-- Modelled from the spec: `Relay.addEnvironment` (not under `src/`)
constructs the environment context and registers the environment and its
credentials with the registry and the credential index. -/
def addEnvironmentModel (st : OfflineRelayState)
    (p : ArchiveEnvironmentParams) : OfflineRelayState :=
  { st with
      registry := st.registry ++ [p.envID],
      credIndex := st.credIndex
        ++ [(EnvCredential.envId p.envID, p.envID),
            (EnvCredential.sdkKey p.sdkKey, p.envID)] }

/-- The expiring-key block of `relayFileDataActions.AddEnvironment`: when
an expiring SDK key is announced and not already bound, add it as a
credential and deprecate it. -/
def expiringKeyStep (st : OfflineRelayState)
    (p : ArchiveEnvironmentParams) : OfflineRelayState :=
  if p.expiringSdkKey ≠ ""
      ∧ lookupEnvironment st.credIndex (EnvCredential.sdkKey p.expiringSdkKey)
          = none then
    { st with
        credIndex := st.credIndex
          ++ [(EnvCredential.sdkKey p.expiringSdkKey, p.envID)],
        deprecatedCreds := st.deprecatedCreds
          ++ [EnvCredential.sdkKey p.expiringSdkKey] }
  else st

/-- Embeds `relayFileDataActions.AddEnvironment`: register the environment
(via `addEnvironmentModel`), run the expiring-key block, then wait on the
rendezvous channel for the update sink captured by the stub data source.
`captured` is the outcome of that bounded wait — the some case is a sink
received in time, the none case is the two-second timeout. On capture the
sink is recorded in `envUpdates` (the subsequent `Init` and
`UpdateStatus` calls act on the sink, not on this state); on timeout the
failure is logged and nothing else happens. -/
def fileDataAddEnvironment (st : OfflineRelayState)
    (p : ArchiveEnvironmentParams) (captured : Option Nat) :
    OfflineRelayState :=
  let st2 := expiringKeyStep (addEnvironmentModel st p) p
  match captured with
  | some sink => { st2 with envUpdates := st2.envUpdates ++ [(p.envID, sink)] }
  | none => { st2 with logs := st2.logs ++ [logMsgOfflineEnvTimeoutError p.name] }

/-! ### Concrete instances used by witnesses and counterexamples -/

/-- A store holding one live flag at version 2, as in the test named
updating flag with older version just sends newer version. -/
def c1Store : Store :=
  [((DataKind.features, "my-flag"), { version := 2, item := some "flag-v2" })]

/-- A stale incoming flag at version 1. -/
def c1Stale : StoredItem := { version := 1, item := some "flag-v1" }

/-- A store holding a deleted tombstone at version 2, as in the test named
updating deleted flag with older version does nothing. -/
def c1TombStore : Store :=
  [((DataKind.features, "my-flag"), { version := 2, item := none })]

/-- A concrete stand-in for the SDK secure-mode hash. -/
def c2Hash (u : User) : String := "h-" ++ u.key

/-- A GET request with a decodable user and a matching hash parameter. -/
def c2Req : ClientRequest :=
  { method := "GET", contentType := "", bodyUser := Except.error "no body",
    pathUser := Except.ok { key := "me" }, queryH := "h-me",
    queryWithReasons := "" }

/-- The client-side flag of the concrete polling scenario in the spec. -/
def c3Flag : Flag :=
  { key := "f", version := 7, trackEvents := false, debugEventsUntilDate := 0,
    clientSide := true }

/-- Its evaluation: variation 0, value true. -/
def c3Detail : EvalDetail :=
  { value := "true", variationIndex := 0, reason := "OFF" }

/-- The expected new-schema entry for that scenario. -/
def c3Entry : EvalEntry :=
  EvalEntry.fullEntry
    { value := "true", variation := some 0, version := 7, trackEvents := false,
      trackReason := false, debugEventsUntilDate := none, reason := none }

/-- An environment holding an SDK key and a mobile key. -/
def c5State : EnvCredState :=
  { credentials := [EnvCredential.sdkKey "oldkey", EnvCredential.mobileKey "mk"],
    deprecated := [] }

/-- An update announcing a new SDK key and deprecating the old one. -/
def c5Params : ArchiveParams :=
  { sdkKey := "newkey", mobileKey := "mk", expiringSdkKey := "oldkey" }

/-- A two-flag dataset in one iteration order. -/
def c6List1 : List KeyedItem :=
  [{ key := "b", version := 2, body := "flag-b" },
   { key := "a", version := 1, body := "flag-a" }]

/-- The same dataset in the other iteration order. -/
def c6List2 : List KeyedItem :=
  [{ key := "a", version := 1, body := "flag-a" },
   { key := "b", version := 2, body := "flag-b" }]

/-- A dataset whose bodies differ from `c8List2` while keys and versions
agree. -/
def c8List1 : List KeyedItem :=
  [{ key := "a", version := 1, body := "old-body" },
   { key := "b", version := 2, body := "x" }]

/-- Same keys and versions as `c8List1`, different bodies and order. -/
def c8List2 : List KeyedItem :=
  [{ key := "b", version := 2, body := "y" },
   { key := "a", version := 1, body := "new-body" }]

/-- A store holding one deleted tombstone. -/
def c9Store : Store :=
  [((DataKind.features, "f"), { version := 2, item := none })]

/-- An empty relay state. -/
def c7State0 : OfflineRelayState :=
  { registry := [], credIndex := [], deprecatedCreds := [], envUpdates := [],
    logs := [] }

/-- An archive environment whose stub never hands back the sink. -/
def c7Params : ArchiveEnvironmentParams :=
  { envID := "env-1", name := "Env One", sdkKey := "sdk-1",
    expiringSdkKey := "" }

end LDRelay

namespace LDRelay

/-! ### Helper lemmas -/

/-- A relay etag is never the empty string. -/
theorem relay_etag_ne_empty (s : String) : ("relay-" ++ s) ≠ "" := by
  intro h
  have hlen := congrArg String.length h
  rw [String.length_append] at hlen
  have h6 : ("relay-" : String).length = 6 := rfl
  have h0 : ("" : String).length = 0 := rfl
  omega

/-- With no `If-None-Match` header the cacheable response is a 200 with
the etag header set. -/
theorem writeCacheable_no_ifNoneMatch (ttl : Int) (entityJSON etagValue : String) :
    writeCacheableJSONResponse "" ttl entityJSON etagValue
      = { status := 200, etagHeader := some ("relay-" ++ etagValue),
          contentTypeHeader := some "application/json",
          varyHeader := if 0 < ttl then some "Authorization" else none,
          hasExpiresHeader := 0 < ttl,
          body := some entityJSON } := by
  rw [writeCacheableJSONResponse, if_neg]
  intro h
  exact h.1 rfl

/-- With a matching `If-None-Match` header the cacheable response is a
bare 304. -/
theorem writeCacheable_matching (ifNoneMatch : String) (ttl : Int)
    (entityJSON etagValue : String)
    (h : ifNoneMatch = "relay-" ++ etagValue) :
    writeCacheableJSONResponse ifNoneMatch ttl entityJSON etagValue
      = statusOnlyResponse 304 := by
  rw [writeCacheableJSONResponse, if_pos]
  exact ⟨by rw [h]; exact relay_etag_ne_empty _, h⟩

/-- Mapping the key-version projection commutes with one ordered
insertion, because the insertion compares only keys. -/
theorem map_keyVersion_orderedInsert (a : KeyedItem) (l : List KeyedItem) :
    (List.orderedInsert keyLe a l).map keyVersion
      = List.orderedInsert pairKeyLe (keyVersion a) (l.map keyVersion) := by
  induction l with
  | nil => rfl
  | cons b t ih =>
      by_cases h : keyLe a b
      · have h' : pairKeyLe (keyVersion a) (keyVersion b) := h
        simp [List.orderedInsert, h, h']
      · have h' : ¬ pairKeyLe (keyVersion a) (keyVersion b) := h
        simp [List.orderedInsert, h, h', ih]

/-- Mapping the key-version projection commutes with the key sort. -/
theorem map_keyVersion_insertionSort (l : List KeyedItem) :
    (List.insertionSort keyLe l).map keyVersion
      = List.insertionSort pairKeyLe (l.map keyVersion) := by
  induction l with
  | nil => rfl
  | cons a t ih => simp [List.insertionSort, map_keyVersion_orderedInsert, ih]

/-- Two permuted pair lists with duplicate-free first components have the
same key sort: both sorts are sorted permutations of the same multiset,
and with distinct keys the non-strict key order is strict, hence
antisymmetric. -/
theorem insertionSort_pairs_eq_of_perm (p1 p2 : List (String × Int))
    (hperm : p1.Perm p2) (hnodup : (p1.map Prod.fst).Nodup) :
    List.insertionSort pairKeyLe p1 = List.insertionSort pairKeyLe p2 := by
  have hs1 := List.sorted_insertionSort pairKeyLe p1
  have hs2 := List.sorted_insertionSort pairKeyLe p2
  have hp1 : (List.insertionSort pairKeyLe p1).Perm p1 :=
    List.perm_insertionSort pairKeyLe p1
  have hp2 : (List.insertionSort pairKeyLe p2).Perm p2 :=
    List.perm_insertionSort pairKeyLe p2
  have hperm' : (List.insertionSort pairKeyLe p1).Perm
      (List.insertionSort pairKeyLe p2) :=
    hp1.trans (hperm.trans hp2.symm)
  have hnodup2 : (p2.map Prod.fst).Nodup :=
    ((hperm.map Prod.fst).nodup_iff).mp hnodup
  have hn1 : ((List.insertionSort pairKeyLe p1).map Prod.fst).Nodup :=
    ((hp1.map Prod.fst).nodup_iff).mpr hnodup
  have hn2 : ((List.insertionSort pairKeyLe p2).map Prod.fst).Nodup :=
    ((hp2.map Prod.fst).nodup_iff).mpr hnodup2
  have hne1 : (List.insertionSort pairKeyLe p1).Pairwise (fun a b => a.1 ≠ b.1) :=
    (List.pairwise_map).mp hn1
  have hne2 : (List.insertionSort pairKeyLe p2).Pairwise (fun a b => a.1 ≠ b.1) :=
    (List.pairwise_map).mp hn2
  have hlt1 : (List.insertionSort pairKeyLe p1).Sorted pairKeyLt :=
    hs1.imp₂ (fun _ _ hab hne => lt_of_le_of_ne hab hne) hne1
  have hlt2 : (List.insertionSort pairKeyLe p2).Sorted pairKeyLt :=
    hs2.imp₂ (fun _ _ hab hne => lt_of_le_of_ne hab hne) hne2
  exact List.eq_of_perm_of_sorted hperm' hlt1 hlt2

/-- The hash input is determined by the multiset of key-version pairs when
keys are duplicate-free. -/
theorem etagInput_eq_of_keyVersion_perm (l1 l2 : List KeyedItem)
    (hperm : (l1.map keyVersion).Perm (l2.map keyVersion))
    (hnodup : (l1.map KeyedItem.key).Nodup) :
    etagInput l1 = etagInput l2 := by
  have hmap : ∀ l : List KeyedItem,
      (etagSortedData l).map etagItemString
        = (List.insertionSort pairKeyLe (l.map keyVersion)).map
            (fun p => p.1 ++ ":" ++ toString p.2) := by
    intro l
    rw [etagSortedData, ← map_keyVersion_insertionSort, List.map_map]
    rfl
  have hfst : (l1.map keyVersion).map Prod.fst = l1.map KeyedItem.key := by
    rw [List.map_map]
    rfl
  unfold etagInput
  rw [hmap, hmap, insertionSort_pairs_eq_of_perm _ _ hperm (by rw [hfst]; exact hnodup)]

/-- The etag is determined by the multiset of key-version pairs when keys
are duplicate-free. -/
theorem pollAllFlagsEtag_congr (sha1hex : String → String)
    (l1 l2 : List KeyedItem)
    (hperm : (l1.map keyVersion).Perm (l2.map keyVersion))
    (hnodup : (l1.map KeyedItem.key).Nodup) :
    pollAllFlagsEtag sha1hex l1 = pollAllFlagsEtag sha1hex l2 := by
  unfold pollAllFlagsEtag
  rw [etagInput_eq_of_keyVersion_perm l1 l2 hperm hnodup]

/-- A write the backing store did not apply leaves the store unchanged. -/
theorem storeUpsert_not_applied_store (s : Store) (kind : DataKind)
    (key : String) (d : StoredItem)
    (h : (storeUpsert s kind key d).1 = false) :
    (storeUpsert s kind key d).2 = s := by
  unfold storeUpsert at h ⊢
  cases hl : List.lookup (kind, key) s with
  | none =>
      rw [hl] at h
      simp at h
  | some old =>
      rw [hl] at h
      by_cases hv : old.version < d.version
      · simp [hv] at h
      · simp [hv]

/-- Membership of SDK-key credentials and the deprecated list are
untouched by the mobile-key block, which only adds and removes mobile-key
credentials. -/
theorem mobileKeyStep_sdk_mem (st : EnvCredState) (p : ArchiveParams)
    (omk v : String) :
    (EnvCredential.sdkKey v ∈ (mobileKeyStep st p omk).credentials
      ↔ EnvCredential.sdkKey v ∈ st.credentials)
    ∧ (mobileKeyStep st p omk).deprecated = st.deprecated := by
  unfold mobileKeyStep
  by_cases hm : p.mobileKey ≠ omk
  · rw [if_pos hm]
    constructor
    · simp [removeCredential, addCredential, List.mem_filter]
    · rfl
  · rw [if_neg hm]
    exact ⟨Iff.rfl, rfl⟩

end LDRelay

namespace LDRelay

/-! ### Claim theorems -/

/-- Claim C1, counterexample: the claim states that a stale upsert (write
not applied because the incoming version is not strictly greater)
publishes no event on any channel. In the scenario of the repository test
named updating flag with older version just sends newer version — a
stored live flag at version 2, an incoming flag at version 1 — the write
is reported not applied, yet the store publishes upsert events carrying
the stored version-2 flag on the all and flags channels plus a ping, so
events appear on all three channels. -/
theorem upsert_stale_publishes_counterexample :
    (storeUpsert c1Store DataKind.features "my-flag" c1Stale).1 = false
    ∧ (relayStoreUpsert c1Store DataKind.features "my-flag" c1Stale).2
        = { allEvents := [RelayEvent.upsertItem "/flags/my-flag"
              { version := 2, item := some "flag-v2" }],
            flagsEvents := [RelayEvent.upsertItem "/my-flag"
              { version := 2, item := some "flag-v2" }],
            pingEvents := [RelayEvent.ping] }
    ∧ (relayStoreUpsert c1Store DataKind.features "my-flag" c1Stale).2
        ≠ noEvents := by
  refine ⟨by decide, by decide, by decide⟩

/-- Claim C1, amended: an upsert the backing store reports as not applied
publishes nothing on any of the three channels exactly in the case where
the stored descriptor for the key is a deleted tombstone; the store is
also left unchanged. (When a live item is stored, the store instead
republishes that stored newer item, as the counterexample shows.) -/
theorem upsert_stale_tombstone_publishes_nothing (s : Store) (kind : DataKind)
    (key : String) (d : StoredItem)
    (hstale : (storeUpsert s kind key d).1 = false)
    (htomb : (storeGet s kind key).item = none) :
    (relayStoreUpsert s kind key d).1 = s
    ∧ (relayStoreUpsert s kind key d).2 = noEvents := by
  have hs2 : (storeUpsert s kind key d).2 = s :=
    storeUpsert_not_applied_store s kind key d hstale
  constructor
  · exact hs2
  · show relayStoreUpsertEvents (storeUpsert s kind key d).1 kind key d.version
        (storeGet (storeUpsert s kind key d).2 kind key) = noEvents
    rw [hstale, hs2]
    simp [relayStoreUpsertEvents, htomb]

/-- Claim C1, witness: a stale upsert against a stored tombstone publishes
nothing. -/
theorem upsert_stale_tombstone_witness :
    (storeUpsert c1TombStore DataKind.features "my-flag" c1Stale).1 = false
    ∧ (storeGet c1TombStore DataKind.features "my-flag").item = none
    ∧ (relayStoreUpsert c1TombStore DataKind.features "my-flag" c1Stale).2
        = noEvents :=
  ⟨by decide, rfl,
    (upsert_stale_tombstone_publishes_nothing c1TombStore DataKind.features
      "my-flag" c1Stale (by decide) rfl).2⟩

/-- Claim C2: for a secure-mode environment and a JS-client request whose
user decodes successfully, the stream is attached exactly when the query
parameter h equals the secure-mode hash of the user (the hash, a 64
character hex string, is never empty); when h is absent or different, the
streaming handler writes 400 with the JSON error body and attaches no
stream, and the evaluation handler writes the same 400 and evaluates
nothing. -/
theorem secureMode_accept_iff (secureModeHash : User → String)
    (req : ClientRequest) (user : User)
    (valueOnly clientInited storeInited : Bool)
    (itemsResult : Except Unit (List Flag))
    (evalFn : Flag → User → EvalDetail)
    (isExperimentFn : Flag → String → Bool)
    (hmethod : ¬(req.method = "REPORT" ∧ req.contentType ≠ "application/json"))
    (hdecode : (if req.method = "REPORT" then req.bodyUser else req.pathUser)
        = Except.ok user)
    (hhash : secureModeHash user ≠ "") :
    (pingStreamHandlerWithUser true secureModeHash SdkKind.jsClient req
        = StreamResult.attached user ↔ req.queryH = secureModeHash user)
    ∧ (req.queryH ≠ secureModeHash user →
        pingStreamHandlerWithUser true secureModeHash SdkKind.jsClient req
            = StreamResult.errorResponse 400 true
                "Environment is in secure mode, and user hash does not match."
          ∧ evaluateAllShared true secureModeHash SdkKind.jsClient valueOnly
              clientInited storeInited itemsResult evalFn isExperimentFn req
            = EvalResponse.errorResp 400 true
                "Environment is in secure mode, and user hash does not match.") := by
  have hprops : getClientSideUserProperties true secureModeHash SdkKind.jsClient req
      = if req.queryH ≠ "" ∧ req.queryH = secureModeHash user then
          UserPropsOutcome.accepted user
        else
          UserPropsOutcome.rejected 400 true
            "Environment is in secure mode, and user hash does not match." := by
    rw [getClientSideUserProperties, if_neg hmethod, hdecode]
    simp
  by_cases hq : req.queryH = secureModeHash user
  · have hcond : req.queryH ≠ "" ∧ req.queryH = secureModeHash user :=
      ⟨by rw [hq]; exact hhash, hq⟩
    have hacc : getClientSideUserProperties true secureModeHash SdkKind.jsClient req
        = UserPropsOutcome.accepted user := by rw [hprops, if_pos hcond]
    constructor
    · constructor
      · intro _
        exact hq
      · intro _
        rw [pingStreamHandlerWithUser, hacc]
    · intro hne
      exact absurd hq hne
  · have hcond : ¬(req.queryH ≠ "" ∧ req.queryH = secureModeHash user) := by
      intro h
      exact hq h.2
    have hrej : getClientSideUserProperties true secureModeHash SdkKind.jsClient req
        = UserPropsOutcome.rejected 400 true
            "Environment is in secure mode, and user hash does not match." := by
      rw [hprops, if_neg hcond]
    constructor
    · constructor
      · intro hatt
        rw [pingStreamHandlerWithUser, hrej] at hatt
        exact absurd hatt (by simp)
      · intro h
        exact absurd h hq
    · intro _
      constructor
      · rw [pingStreamHandlerWithUser, hrej]
      · rw [evaluateAllShared, hrej]

/-- Claim C2, witness: with a concrete hash function and a GET request
carrying the matching h parameter, the acceptance equivalence holds. -/
theorem secureMode_accept_iff_witness :
    c2Hash { key := "me" } ≠ "" ∧
    (pingStreamHandlerWithUser true c2Hash SdkKind.jsClient c2Req
        = StreamResult.attached { key := "me" }
      ↔ c2Req.queryH = c2Hash { key := "me" }) :=
  ⟨by decide,
    (secureMode_accept_iff c2Hash c2Req { key := "me" } false false false
      (Except.ok []) (fun _ _ => { value := "v", variationIndex := 0, reason := "r" })
      (fun _ _ => false) (by decide) rfl (by decide)).1⟩

/-- Claim C3: every entry of a new-schema evaluation response comes from a
flag of the dataset and carries the evaluated value and the flag version;
its trackEvents is the flag tracking bit or the experiment bit, its
trackReason is the experiment bit; it has a variation exactly when the
variation index is non-negative (and then it is that index), a reason
exactly when the caller asked for reasons or the evaluation is an
experiment, and a debugEventsUntilDate exactly when the flag field is
non-zero. -/
theorem evalx_entry_shape (sdkKind : SdkKind) (withReasons : Bool)
    (evalFn : Flag → User → EvalDetail)
    (isExperimentFn : Flag → String → Bool)
    (user : User) (items : List Flag) (key : String) (entry : EvalEntry)
    (hmem : (key, entry)
        ∈ evaluateAllLoop sdkKind false withReasons evalFn isExperimentFn
            user items) :
    ∃ flag, flag ∈ items ∧ key = flag.key ∧
      ∃ r, entry = EvalEntry.fullEntry r
        ∧ r.value = (evalFn flag user).value
        ∧ r.version = flag.version
        ∧ r.trackEvents
            = (flag.trackEvents || isExperimentFn flag (evalFn flag user).reason)
        ∧ r.trackReason = isExperimentFn flag (evalFn flag user).reason
        ∧ (r.variation.isSome ↔ 0 ≤ (evalFn flag user).variationIndex)
        ∧ (∀ v, r.variation = some v → v = (evalFn flag user).variationIndex)
        ∧ (r.reason.isSome
            ↔ (withReasons || isExperimentFn flag (evalFn flag user).reason)
                = true)
        ∧ (r.debugEventsUntilDate.isSome ↔ flag.debugEventsUntilDate ≠ 0) := by
  obtain ⟨flag, hflag, heq⟩ := List.mem_map.mp hmem
  have hfl : flag ∈ items := List.mem_of_mem_filter hflag
  injection heq with hkey hentry
  refine ⟨flag, hfl, hkey.symm, ?_⟩
  refine ⟨{ value := (evalFn flag user).value
            version := flag.version
            trackEvents := flag.trackEvents
              || isExperimentFn flag (evalFn flag user).reason
            trackReason := isExperimentFn flag (evalFn flag user).reason
            variation := if 0 ≤ (evalFn flag user).variationIndex then
                some (evalFn flag user).variationIndex else none
            reason := if withReasons || isExperimentFn flag (evalFn flag user).reason
                then some (evalFn flag user).reason else none
            debugEventsUntilDate := if flag.debugEventsUntilDate ≠ 0 then
                some flag.debugEventsUntilDate else none }, ?_, rfl, rfl, rfl, rfl,
          ?_, ?_, ?_, ?_⟩
  · rw [← hentry]
    rfl
  · by_cases h : 0 ≤ (evalFn flag user).variationIndex <;> simp [h]
  · intro v hv
    by_cases h : 0 ≤ (evalFn flag user).variationIndex
    · rw [if_pos h] at hv
      have hv2 : some (evalFn flag user).variationIndex = some v := hv
      injection hv2 with hv3
      exact hv3.symm
    · rw [if_neg h] at hv
      exact absurd hv (by simp)
  · by_cases h : (withReasons || isExperimentFn flag (evalFn flag user).reason)
        = true <;> simp [h]
  · by_cases h : flag.debugEventsUntilDate ≠ 0 <;> simp [h]

/-- Claim C3, witness: the concrete scenario of the spec — one
client-side flag at version 7, variation 0, value true — yields exactly
the expected entry, and the shape theorem applies to it. -/
theorem evalx_entry_shape_witness :
    ("f", c3Entry) ∈ evaluateAllLoop SdkKind.jsClient false false
        (fun _ _ => c3Detail) (fun _ _ => false) { key := "me" } [c3Flag]
    ∧ ∃ flag, flag ∈ [c3Flag] ∧ "f" = flag.key ∧
        ∃ r, c3Entry = EvalEntry.fullEntry r
          ∧ r.value = c3Detail.value
          ∧ r.version = flag.version
          ∧ r.trackEvents = (flag.trackEvents || false)
          ∧ r.trackReason = false
          ∧ (r.variation.isSome ↔ 0 ≤ c3Detail.variationIndex)
          ∧ (∀ v, r.variation = some v → v = c3Detail.variationIndex)
          ∧ (r.reason.isSome ↔ (false || false) = true)
          ∧ (r.debugEventsUntilDate.isSome ↔ flag.debugEventsUntilDate ≠ 0) :=
  ⟨by decide,
    evalx_entry_shape SdkKind.jsClient false (fun _ _ => c3Detail)
      (fun _ _ => false) { key := "me" } [c3Flag] "f" c3Entry (by decide)⟩

/-- Claim C4: a credential bound to no environment in the index is
rejected with status 401 when it is a server SDK key or a mobile key and
404 when it is an environment ID, and no environment is resolved for it,
so no environment state can be touched. -/
theorem unknown_credential_rejected (idx : CredentialIndex) (c : EnvCredential)
    (h : lookupEnvironment idx c = none) :
    authenticateRequest idx c = AuthResult.authFailed (unknownCredentialStatus c)
    ∧ (∀ v, c = EnvCredential.sdkKey v ∨ c = EnvCredential.mobileKey v →
        unknownCredentialStatus c = 401)
    ∧ (∀ v, c = EnvCredential.envId v → unknownCredentialStatus c = 404)
    ∧ (∀ e, authenticateRequest idx c ≠ AuthResult.authorized e) := by
  have hauth : authenticateRequest idx c
      = AuthResult.authFailed (unknownCredentialStatus c) := by
    rw [authenticateRequest, h]
  refine ⟨hauth, ?_, ?_, ?_⟩
  · rintro v (rfl | rfl) <;> rfl
  · rintro v rfl
    rfl
  · intro e he
    rw [hauth] at he
    exact absurd he (by simp)

/-- Claim C4, witness: an SDK key absent from an empty index is rejected
with 401. -/
theorem unknown_credential_rejected_witness :
    lookupEnvironment [] (EnvCredential.sdkKey "undefined-key") = none
    ∧ authenticateRequest [] (EnvCredential.sdkKey "undefined-key")
        = AuthResult.authFailed
            (unknownCredentialStatus (EnvCredential.sdkKey "undefined-key")) :=
  ⟨rfl, (unknown_credential_rejected [] (EnvCredential.sdkKey "undefined-key")
    rfl).1⟩

/-- Claim C5: when an auto-configuration update announces an SDK key
different from the current one, the new key is added to the credentials;
if the previous key equals the announced expiring key it is deprecated and
keeps resolving, and otherwise it is removed immediately — it is in
neither list afterwards (assuming it was not already deprecated) and so no
longer resolves. -/
theorem sdk_key_rotation (st : EnvCredState) (p : ArchiveParams)
    (hchanged : p.sdkKey ≠ currentSDKKey st) :
    (EnvCredential.sdkKey p.sdkKey
        ∈ (updateEnvironmentCredentials st p).credentials)
    ∧ (p.expiringSdkKey = currentSDKKey st →
        EnvCredential.sdkKey (currentSDKKey st)
            ∈ (updateEnvironmentCredentials st p).deprecated
        ∧ credentialResolves (updateEnvironmentCredentials st p)
            (EnvCredential.sdkKey (currentSDKKey st)))
    ∧ (p.expiringSdkKey ≠ currentSDKKey st →
        EnvCredential.sdkKey (currentSDKKey st)
            ∉ (updateEnvironmentCredentials st p).credentials
        ∧ (EnvCredential.sdkKey (currentSDKKey st) ∉ st.deprecated →
            ¬ credentialResolves (updateEnvironmentCredentials st p)
                (EnvCredential.sdkKey (currentSDKKey st)))) := by
  have hmem := fun v =>
    mobileKeyStep_sdk_mem (sdkKeyStep st p (currentSDKKey st)) p
      (currentMobileKey st) v
  have hdep := (hmem "").2
  have hne : EnvCredential.sdkKey p.sdkKey
      ≠ EnvCredential.sdkKey (currentSDKKey st) := by
    intro h
    injection h with h2
    exact hchanged h2
  by_cases hexp : p.expiringSdkKey = currentSDKKey st
  · have hstep : sdkKeyStep st p (currentSDKKey st)
        = deprecateCredential (addCredential st (.sdkKey p.sdkKey))
            (.sdkKey (currentSDKKey st)) := by
      rw [sdkKeyStep, if_pos hchanged, if_pos hexp]
    refine ⟨?_, ?_, fun h => absurd hexp h⟩
    · rw [updateEnvironmentCredentials, (hmem p.sdkKey).1, hstep]
      simp [deprecateCredential, addCredential, List.mem_filter, hne]
    · intro _
      have hd : EnvCredential.sdkKey (currentSDKKey st)
          ∈ (updateEnvironmentCredentials st p).deprecated := by
        rw [updateEnvironmentCredentials, hdep, hstep]
        simp [deprecateCredential]
      exact ⟨hd, Or.inr hd⟩
  · have hstep : sdkKeyStep st p (currentSDKKey st)
        = removeCredential (addCredential st (.sdkKey p.sdkKey))
            (.sdkKey (currentSDKKey st)) := by
      rw [sdkKeyStep, if_pos hchanged, if_neg hexp]
    refine ⟨?_, fun h => absurd h hexp, fun _ => ?_⟩
    · rw [updateEnvironmentCredentials, (hmem p.sdkKey).1, hstep]
      simp [removeCredential, addCredential, List.mem_filter, hne]
    · have hnc : EnvCredential.sdkKey (currentSDKKey st)
          ∉ (updateEnvironmentCredentials st p).credentials := by
        rw [updateEnvironmentCredentials, (hmem (currentSDKKey st)).1, hstep]
        simp [removeCredential, addCredential, List.mem_filter]
      refine ⟨hnc, fun hnd hres => ?_⟩
      cases hres with
      | inl h => exact hnc h
      | inr h =>
          rw [updateEnvironmentCredentials, hdep, hstep] at h
          exact hnd h

/-- Claim C5, witness: rotating from oldkey to newkey with oldkey
announced as the expiring key adds newkey and deprecates oldkey. -/
theorem sdk_key_rotation_witness :
    c5Params.sdkKey ≠ currentSDKKey c5State
    ∧ EnvCredential.sdkKey "newkey"
        ∈ (updateEnvironmentCredentials c5State c5Params).credentials
    ∧ EnvCredential.sdkKey "oldkey"
        ∈ (updateEnvironmentCredentials c5State c5Params).deprecated :=
  ⟨by decide, (sdk_key_rotation c5State c5Params (by decide)).1,
    ((sdk_key_rotation c5State c5Params (by decide)).2.1 (by decide)).1⟩

end LDRelay

namespace LDRelay

/-- Claim C6: when the dataset is unchanged between two GET requests to
the all-flags polling endpoint (the two reads return the same items, in
any iteration order, with duplicate-free keys), both responses carry the
same etag header; and when `If-None-Match` carries exactly the etag the
handler computes, the response is 304 with no body written. -/
theorem pollAllFlags_cacheable (sha1hex : String → String)
    (marshal : List (String × String) → String)
    (l1 l2 : List KeyedItem) (ifNoneMatch : String) (ttl : Int)
    (hperm : l1.Perm l2) (hnodup : (l1.map KeyedItem.key).Nodup) :
    (pollAllFlagsHandler sha1hex marshal (Except.ok l1) "" ttl).etagHeader
        = (pollAllFlagsHandler sha1hex marshal (Except.ok l2) "" ttl).etagHeader
    ∧ (pollAllFlagsHandler sha1hex marshal (Except.ok l1) "" ttl).etagHeader
        = some ("relay-" ++ pollAllFlagsEtag sha1hex l1)
    ∧ (ifNoneMatch = "relay-" ++ pollAllFlagsEtag sha1hex l1 →
        (pollAllFlagsHandler sha1hex marshal (Except.ok l2) ifNoneMatch ttl).status
            = 304
        ∧ (pollAllFlagsHandler sha1hex marshal (Except.ok l2) ifNoneMatch ttl).body
            = none) := by
  have hetag : pollAllFlagsEtag sha1hex l1 = pollAllFlagsEtag sha1hex l2 :=
    pollAllFlagsEtag_congr sha1hex l1 l2 (hperm.map keyVersion) hnodup
  have hopen : ∀ l : List KeyedItem,
      pollAllFlagsHandler sha1hex marshal (Except.ok l) "" ttl
        = writeCacheableJSONResponse "" ttl (marshal (itemsCollectionToMap l))
            (pollAllFlagsEtag sha1hex l) := fun _ => rfl
  refine ⟨?_, ?_, ?_⟩
  · rw [hopen, hopen, writeCacheable_no_ifNoneMatch,
      writeCacheable_no_ifNoneMatch, hetag]
  · rw [hopen, writeCacheable_no_ifNoneMatch]
  · intro hmatch
    have hmatch2 : ifNoneMatch = "relay-" ++ pollAllFlagsEtag sha1hex l2 := by
      rw [hmatch, hetag]
    have h304 : pollAllFlagsHandler sha1hex marshal (Except.ok l2) ifNoneMatch ttl
        = statusOnlyResponse 304 := by
      show writeCacheableJSONResponse ifNoneMatch ttl
          (marshal (itemsCollectionToMap l2)) (pollAllFlagsEtag sha1hex l2)
        = statusOnlyResponse 304
      exact writeCacheable_matching _ _ _ _ hmatch2
    rw [h304]
    exact ⟨rfl, rfl⟩

/-- Claim C6, witness: the two iteration orders of a concrete two-flag
dataset, with the second request replaying the etag of the first, yield a
304 with no body. -/
theorem pollAllFlags_cacheable_witness :
    c6List1.Perm c6List2 ∧ (c6List1.map KeyedItem.key).Nodup ∧
    ((pollAllFlagsHandler id (fun _ => "") (Except.ok c6List2)
        ("relay-" ++ pollAllFlagsEtag id c6List1) 0).status = 304
      ∧ (pollAllFlagsHandler id (fun _ => "") (Except.ok c6List2)
        ("relay-" ++ pollAllFlagsEtag id c6List1) 0).body = none) :=
  ⟨by decide, by decide,
    (pollAllFlags_cacheable id (fun _ => "") c6List1 c6List2
      ("relay-" ++ pollAllFlagsEtag id c6List1) 0 (by decide) (by decide)).2.2 rfl⟩

/-- Claim C7, counterexample: the claim states that when the capturing
stub does not hand back the update sink in time, the environment is not
registered afterwards. Running the add flow on an empty relay state with
the capture timing out shows the failure is logged — but the environment
is registered and reachable through both the registry and the credential
index, because registration happens before the bounded wait and the
timeout branch only logs. -/
theorem addEnvironment_timeout_counterexample :
    (fileDataAddEnvironment c7State0 c7Params none).logs
        = [logMsgOfflineEnvTimeoutError "Env One"]
    ∧ "env-1" ∈ (fileDataAddEnvironment c7State0 c7Params none).registry
    ∧ lookupEnvironment (fileDataAddEnvironment c7State0 c7Params none).credIndex
        (EnvCredential.envId "env-1") = some "env-1" := by
  refine ⟨by decide, by decide, by decide⟩

/-- Claim C7, amended: when the capturing stub does not hand back the
update sink within the bounded wait, the construction attempt logs the
timeout failure, but the environment remains registered (it was added
before the wait); what is missing is the captured sink — the
per-environment update map is unchanged, so no initial data can be pushed
later. -/
theorem addEnvironment_timeout_amended (st : OfflineRelayState)
    (p : ArchiveEnvironmentParams) :
    (fileDataAddEnvironment st p none).logs
        = st.logs ++ [logMsgOfflineEnvTimeoutError p.name]
    ∧ p.envID ∈ (fileDataAddEnvironment st p none).registry
    ∧ (fileDataAddEnvironment st p none).envUpdates = st.envUpdates := by
  have hreg : (expiringKeyStep (addEnvironmentModel st p) p).registry
      = st.registry ++ [p.envID] := by
    unfold expiringKeyStep
    by_cases h : p.expiringSdkKey ≠ ""
        ∧ lookupEnvironment (addEnvironmentModel st p).credIndex
            (EnvCredential.sdkKey p.expiringSdkKey) = none
    · rw [if_pos h]
      simp [addEnvironmentModel]
    · rw [if_neg h]
      simp [addEnvironmentModel]
  have hlogs : (expiringKeyStep (addEnvironmentModel st p) p).logs = st.logs := by
    unfold expiringKeyStep
    by_cases h : p.expiringSdkKey ≠ ""
        ∧ lookupEnvironment (addEnvironmentModel st p).credIndex
            (EnvCredential.sdkKey p.expiringSdkKey) = none
    · rw [if_pos h]
      simp [addEnvironmentModel]
    · rw [if_neg h]
      simp [addEnvironmentModel]
  have hupd : (expiringKeyStep (addEnvironmentModel st p) p).envUpdates
      = st.envUpdates := by
    unfold expiringKeyStep
    by_cases h : p.expiringSdkKey ≠ ""
        ∧ lookupEnvironment (addEnvironmentModel st p).credIndex
            (EnvCredential.sdkKey p.expiringSdkKey) = none
    · rw [if_pos h]
      simp [addEnvironmentModel]
    · rw [if_neg h]
      simp [addEnvironmentModel]
  refine ⟨?_, ?_, ?_⟩
  · show (expiringKeyStep (addEnvironmentModel st p) p).logs
        ++ [logMsgOfflineEnvTimeoutError p.name]
      = st.logs ++ [logMsgOfflineEnvTimeoutError p.name]
    rw [hlogs]
  · show p.envID ∈ (expiringKeyStep (addEnvironmentModel st p) p).registry
    rw [hreg]
    simp
  · exact hupd

/-- Claim C8: the etag of the all-flags polling endpoint is a function of
only the key-version pairs of the dataset — for any hash function, any
two datasets with the same key-version multiset and duplicate-free keys
(in particular, with arbitrarily different flag bodies and iteration
orders) receive the same etag, so a conditional request can be answered
304 although flag contents changed without a version bump. -/
theorem etag_function_of_key_versions (sha1hex : String → String)
    (l1 l2 : List KeyedItem)
    (hperm : (l1.map keyVersion).Perm (l2.map keyVersion))
    (hnodup : (l1.map KeyedItem.key).Nodup) :
    pollAllFlagsEtag sha1hex l1 = pollAllFlagsEtag sha1hex l2 :=
  pollAllFlagsEtag_congr sha1hex l1 l2 hperm hnodup

/-- Claim C8, witness: two concrete datasets with equal key-version pairs
but different bodies and orders receive the same etag. -/
theorem etag_function_of_key_versions_witness :
    (c8List1.map keyVersion).Perm (c8List2.map keyVersion) ∧
    (c8List1.map KeyedItem.key).Nodup ∧
    pollAllFlagsEtag id c8List1 = pollAllFlagsEtag id c8List2 :=
  ⟨by decide, by decide,
    etag_function_of_key_versions id c8List1 c8List2 (by decide) (by decide)⟩

/-- Claim C9: a single-item poll answers 404 — with no etag header and no
body — whenever the store returns a descriptor without an item, which
covers both an absent key and a deleted tombstone; a store read error
answers 500 instead. -/
theorem pollFlagOrSegment_notFound (marshal : String → String)
    (s : Store) (kind : DataKind) (key : String) (ifNoneMatch : String)
    (ttl : Int)
    (h : (storeGet s kind key).item = none) :
    pollFlagOrSegment marshal (.ok (storeGet s kind key)) ifNoneMatch ttl
        = statusOnlyResponse 404
    ∧ (pollFlagOrSegment marshal (.ok (storeGet s kind key)) ifNoneMatch
        ttl).etagHeader = none
    ∧ (pollFlagOrSegment marshal (.ok (storeGet s kind key)) ifNoneMatch
        ttl).body = none
    ∧ pollFlagOrSegment marshal (.error ()) ifNoneMatch ttl
        = statusOnlyResponse 500 := by
  refine ⟨?_, ?_, ?_, rfl⟩ <;> simp [pollFlagOrSegment, h, statusOnlyResponse]

/-- Claim C9, witness: reading a stored tombstone yields the 404 with no
etag and no body. -/
theorem pollFlagOrSegment_notFound_witness :
    (storeGet c9Store DataKind.features "f").item = none ∧
    pollFlagOrSegment id (Except.ok (storeGet c9Store DataKind.features "f"))
        "" 0
      = statusOnlyResponse 404 :=
  ⟨rfl, (pollFlagOrSegment_notFound id c9Store DataKind.features "f" "" 0 rfl).1⟩

/-- Claim C10: obscureKey preserves the length of every key; keys of
length at most 8 are returned completely unchanged; for longer keys every
character in the first 4 or last 5 positions is preserved verbatim, and a
character strictly between them is replaced exactly when it is a
hexadecimal digit (by an asterisk) and kept otherwise. -/
theorem obscureKey_spec (key : String) :
    (obscureKey key).length = key.length
    ∧ (key.length ≤ 8 → obscureKey key = key)
    ∧ (8 < key.length → ∀ i : Nat,
        ((i < 4 ∨ key.length - 5 ≤ i) →
            (obscureKey key).data[i]? = key.data[i]?)
        ∧ (4 ≤ i → i < key.length - 5 →
            (obscureKey key).data[i]? = (key.data[i]?).map hexObscure)) := by
  have hdl : key.length = key.data.length := rfl
  by_cases hlen : 8 < key.length
  · have hobs : obscureKey key = String.mk (key.data.take 4 ++
        ((key.data.drop 4).take (key.length - 9)).map hexObscure ++
        key.data.drop (key.length - 5)) := by
      simp [obscureKey, hlen]
    refine ⟨?_, ?_, ?_⟩
    · rw [hobs, String.length_mk]
      simp only [List.length_append, List.length_take, List.length_map,
        List.length_drop]
      omega
    · omega
    · intro _ i
      have hget : (obscureKey key).data[i]? =
          ((key.data.take 4 ++
            ((key.data.drop 4).take (key.length - 9)).map hexObscure ++
            key.data.drop (key.length - 5)))[i]? := by
        rw [hobs]
      constructor
      · intro hi
        rw [hget]
        rcases hi with hi | hi
        · rw [List.append_assoc, List.getElem?_append, List.getElem?_take]
          have h4 : (List.take 4 key.data).length = 4 := by
            simp [List.length_take]
            omega
          rw [h4, if_pos (by omega), if_pos (by omega)]
        · rw [List.getElem?_append]
          have hlen1 : (List.take 4 key.data ++
              ((key.data.drop 4).take (key.length - 9)).map hexObscure).length
              = key.length - 5 := by
            simp only [List.length_append, List.length_take, List.length_map,
              List.length_drop]
            omega
          rw [hlen1, if_neg (by omega), List.getElem?_drop]
          congr 1
          omega
      · intro hi4 hi5
        rw [hget, List.getElem?_append]
        have hlen1 : (List.take 4 key.data ++
            ((key.data.drop 4).take (key.length - 9)).map hexObscure).length
            = key.length - 5 := by
          simp only [List.length_append, List.length_take, List.length_map,
            List.length_drop]
          omega
        rw [hlen1, if_pos (by omega), List.getElem?_append]
        have h4 : (List.take 4 key.data).length = 4 := by
          simp [List.length_take]
          omega
        rw [h4, if_neg (by omega), List.getElem?_map, List.getElem?_take,
          if_pos (by omega), List.getElem?_drop]
        congr 2
        omega
  · have heq : obscureKey key = key := by simp [obscureKey, hlen]
    refine ⟨by rw [heq], fun _ => heq, fun h8 => absurd h8 hlen⟩

/-- Claim C10, witness: a concrete 17 character key keeps its length, its
position 0 verbatim, and has its position 5 obscured by the hexadecimal
rule. -/
theorem obscureKey_witness :
    8 < ("sdk-0123456789key" : String).length ∧
    (obscureKey "sdk-0123456789key").data[5]? =
      (("sdk-0123456789key" : String).data[5]?).map hexObscure ∧
    (obscureKey "sdk-0123456789key").data[0]? =
      ("sdk-0123456789key" : String).data[0]? :=
  ⟨by decide,
   ((obscureKey_spec "sdk-0123456789key").2.2 (by decide) 5).2 (by decide)
     (by decide),
   ((obscureKey_spec "sdk-0123456789key").2.2 (by decide) 0).1
     (Or.inl (by decide))⟩

end LDRelay
